import Mathlib

/-!
Shallow embedding of `mal_scraper/anime.py` from the Anime-Scraper repository.

The module scrapes one anime page: `retrieve_anime` fetches the page (with a
retry wrapper) and `_process_soup` runs a fixed table of nine per-field
extraction functions over the parsed document, catching only parsing-domain
errors and collecting a per-field failure list.

The parsed HTML document ("soup") is abstracted by the outcome of each query
the source performs on it.  Python string operations used by the source
(`strip`, `lower`, `split`, `int`) are re-implemented here by structural
recursion over the character list so that all definitions evaluate by `decide`.
-/

deriving instance DecidableEq for Except

namespace AnimeScraper

/-- Characters considered whitespace by Python `str.strip()` (restricted to
the ASCII whitespace that `Char.isWhitespace` recognises; all scraped label
texts in scope are ASCII-spaced). -/
def pySpace (c : Char) : Bool := c.isWhitespace

/-- Drop leading whitespace characters. -/
def dropLeadingSpace : List Char → List Char
  | [] => []
  | c :: rest => if pySpace c then dropLeadingSpace rest else c :: rest

/-- Python `str.strip()`: remove leading and trailing whitespace. -/
def pyStrip (s : String) : String :=
  String.mk ((dropLeadingSpace ((dropLeadingSpace s.data).reverse)).reverse)

/-- Python `str.lower()` (ASCII range, which covers every label and keyword
the source compares against). -/
def pyLower (s : String) : String := String.mk (s.data.map Char.toLower)

/-- Does the first list start with the second? -/
def beginsWith : List Char → List Char → Bool
  | _, [] => true
  | [], _ :: _ => false
  | c :: cs, d :: ds => c = d && beginsWith cs ds

/-- Worker for `pySplit`: scans the character list, emitting a fragment at
every non-overlapping occurrence of the (nonempty) separator, exactly like
Python `str.split(sep)`.  The fuel argument starts at the list length and
dominates it throughout, so the fuel-exhausted branch is unreachable. -/
def splitFuel (sep : List Char) : Nat → List Char → List Char → List (List Char)
  | _, acc, [] => [acc.reverse]
  | 0, acc, l => [acc.reverse ++ l]
  | fuel + 1, acc, c :: cs =>
    if beginsWith (c :: cs) sep then
      acc.reverse :: splitFuel sep fuel [] (List.drop (sep.length - 1) cs)
    else
      splitFuel sep fuel (c :: acc) cs

/-- Python `str.split(sep)` for a nonempty separator. -/
def pySplit (s sep : String) : List String :=
  match sep.data with
  | [] => [s]
  | _ :: _ => (splitFuel sep.data s.data.length [] s.data).map String.mk

/-- Python `sub in s` membership test for a nonempty substring `sub`:
equivalently, splitting on it produces more than one fragment. -/
def pyContains (s sub : String) : Bool := (pySplit s sub).length > 1

/-- Grammar of the digit tail accepted by Python `int`: after the first
digit, a sequence of digits in which single underscores may stand between
two digits. -/
def pyIntTail : List Char → Bool
  | [] => true
  | ['_'] => false
  | '_' :: c :: rest => c.isDigit && pyIntTail rest
  | c :: rest => c.isDigit && pyIntTail rest

/-- Numeric value of a list of decimal digit characters. -/
def natOfDigits (l : List Char) : Nat :=
  l.foldl (fun a c => a * 10 + (c.toNat - 48)) 0

/-- Model of Python's builtin `int` applied to a string (base 10, ASCII):
surrounding whitespace is ignored, then an optional sign is followed by
digits with single underscores allowed between digits.  `none` models the
`ValueError` raised on any other input. -/
def pyInt (s : String) : Option Int :=
  let signed : Int × List Char :=
    match (pyStrip s).data with
    | '+' :: rest => (1, rest)
    | '-' :: rest => (-1, rest)
    | l => (1, l)
  match signed.2 with
  | [] => none
  | c :: rest =>
    if c.isDigit && pyIntTail rest then
      some (signed.1 * (natOfDigits ((c :: rest).filter (fun ch => ch ≠ '_')) : Int))
    else none

/-- All-digit test with value, used by the date parser. -/
def strDigits? (s : String) : Option Nat :=
  match s.data with
  | [] => none
  | l => if l.all Char.isDigit then some (natOfDigits l) else none

/-- Python exception values that the embedded code can raise.  `missingTag`
and `parseError` are the scraper's own exception classes; `valueError` and
`attributeError` model the builtin exceptions of the same names, and
`evalError` models an error escaping the dynamic `eval` call in `_get_date`
before the date parser runs. -/
inductive PyError where
  | missingTag (field : String)
  | parseError (field : String) (msg : String)
  | valueError
  | attributeError
  | evalError
  deriving DecidableEq, Repr

/-- Modelled from the spec: the class test performed by the extraction
table's `except ParseError` clause.  The scraper's exception module is not
part of the embedded source; the spec states that both error kinds —
missing-tag and parse-error — are caught by the extraction table, i.e. a
missing-tag error belongs to the parsing-domain error class. -/
def PyError.isParseError : PyError → Bool
  | .missingTag _ => true
  | .parseError _ _ => true
  | _ => false

/-- Calendar date produced by the date parser. -/
structure Date where
  year : Nat
  month : Nat
  day : Nat
  deriving DecidableEq, Repr

/-- Lowercase three-letter month abbreviations, in month order. -/
def monthAbbrevs : List String :=
  ["jan", "feb", "mar", "apr", "may", "jun",
   "jul", "aug", "sep", "oct", "nov", "dec"]

/-- Modelled from the spec: `get_date` from the `mal_utils` module, which is
not part of the embedded source.  The spec describes it as "a date-string
parser returning a date value or raising on malformed input", parsing texts
such as "Apr 3, 2015" to the date 2015-04-03 (the `strptime` format
"%b %d, %Y").  `valueError` models the `ValueError` raised on malformed
input. -/
def get_date (date_text : String) : Except PyError Date :=
  match pySplit date_text ", " with
  | [monthday, yeartext] =>
    match pySplit monthday " " with
    | [montext, daytext] =>
      match monthAbbrevs.findIdx? (fun m => m == pyLower montext),
            strDigits? daytext, strDigits? yeartext with
      | some m, some d, some y =>
        if 1 ≤ d ∧ d ≤ 31 ∧ 1 ≤ y then .ok ⟨y, m + 1, d⟩ else .error .valueError
      | _, _, _ => .error .valueError
    | _ => .error .valueError
  | _ => .error .valueError

/-- The source's `_get_date` builds a Python expression string around
`date_text` and runs it through `eval`.  When the text contains a quote
character (codepoint 39) the built code is malformed and `eval` raises
before `get_date` runs, modelled as `evalError`; otherwise the call is
exactly `get_date date_text`. -/
def _get_date (date_text : String) : Except PyError Date :=
  if date_text.data.any (fun c => c.toNat = 39) then .error .evalError
  else get_date date_text

/-- Abstraction of the parsed HTML document: one component per query the
source performs on the soup.  For each labelled field, `none` means the
label span was not found (`soup.find` returned `None`); `some none` means
the span was found but the adjacent text is absent (the subsequent
attribute access in Python raises `AttributeError`); `some (some s)` means
the span was found and the adjacent raw text is `s`.  For `name_span` the
inner option is the tag's `string` attribute, which may itself be `None`
and is then returned as-is. -/
structure Soup where
  name_span : Option (Option String)
  english_pretag : Option (Option String)
  japanese_pretag : Option (Option String)
  type_pretag : Option (Option String)
  episodes_pretag : Option (Option String)
  status_pretag : Option (Option String)
  aired_pretag : Option (Option String)
  premiered_pretag : Option (Option String)
  deriving DecidableEq, Repr

/-- Typed value of one extracted field. -/
inductive FieldValue where
  | str (s : String)
  | int (n : Int)
  | date (d : Date)
  | premiere (year : Int) (season : String)
  deriving DecidableEq, Repr

/-- `_get_name`: primary title element; missing element raises a
missing-tag error, and the tag's `string` attribute is returned as-is
(it may be `None`). -/
def _get_name (soup : Soup) : Except PyError (Option FieldValue) :=
  match soup.name_span with
  | none => .error (.missingTag "name")
  | some text => .ok (text.map FieldValue.str)

/-- `_get_english_name`: label "English:"; absent label returns null. -/
def _get_english_name (soup : Soup) : Except PyError (Option FieldValue) :=
  match soup.english_pretag with
  | none => .ok none
  | some none => .error .attributeError
  | some (some s) => .ok (some (.str (pyStrip s)))

/-- `_get_japanese_name`: label "Japanese:"; absent label returns null. -/
def _get_japanese_name (soup : Soup) : Except PyError (Option FieldValue) :=
  match soup.japanese_pretag with
  | none => .ok none
  | some none => .error .attributeError
  | some (some s) => .ok (some (.str (pyStrip s)))

/-- `_get_format`: label "Type:", following link text, trimmed; absent
label raises a missing-tag error. -/
def _get_format (soup : Soup) : Except PyError (Option FieldValue) :=
  match soup.type_pretag with
  | none => .error (.missingTag "type")
  | some none => .error .attributeError
  | some (some s) => .ok (some (.str (pyStrip s)))

/-- `_get_episodes`: label "Episodes:"; sibling text trimmed and
lowercased; "unknown" is the successful value 0; otherwise the text is
converted by `int`, and a conversion failure raises a parse error. -/
def _get_episodes (soup : Soup) : Except PyError (Option FieldValue) :=
  match soup.episodes_pretag with
  | none => .error (.missingTag "episodes")
  | some none => .error .attributeError
  | some (some s) =>
    let episodes_text := pyLower (pyStrip s)
    if episodes_text = "unknown" then .ok (some (.int 0))
    else
      match pyInt episodes_text with
      | some episodes_number => .ok (some (.int episodes_number))
      | none =>
        .error (.parseError "episodes"
          ("Unable to convert text \"" ++ episodes_text ++ "\" to int"))

/-- `_get_airing_status`: label "Status:"; sibling text trimmed and
lowercased, then mapped through the two-entry status dictionary;
unrecognized text raises a parse error. -/
def _get_airing_status (soup : Soup) : Except PyError (Option FieldValue) :=
  match soup.status_pretag with
  | none => .error (.missingTag "status")
  | some none => .error .attributeError
  | some (some s) =>
    let status_text := pyLower (pyStrip s)
    if status_text = "finished airing" then .ok (some (.str "Finished Airing"))
    else if status_text = "currently airing" then .ok (some (.str "Currently Airing"))
    else .error (.parseError "status" ("Unable to identify text \"" ++ status_text ++ "\""))

/-- `_get_start_date`: label "Aired:"; date parsed from the text before the
" to " separator (Python `split(' to ')[0]`, the whole text when the
separator is absent); a `ValueError` from the date parser becomes a parse
error, any other error propagates. -/
def _get_start_date (soup : Soup) : Except PyError (Option FieldValue) :=
  match soup.aired_pretag with
  | none => .error (.missingTag "aired")
  | some none => .error .attributeError
  | some (some s) =>
    let aired_text := pyStrip s
    let start_text := (pySplit aired_text " to ").headD ""
    match _get_date start_text with
    | .ok start_date => .ok (some (.date start_date))
    | .error .valueError =>
      .error (.parseError "airing start date" ("Cannot process text \"" ++ start_text ++ "\""))
    | .error e => .error e

/-- `_get_end_date`: label "Aired:"; when " to " occurs in the text the end
text is `split(' to ')[1]`, otherwise the whole text; end text "?" yields
null; a `ValueError` from the date parser becomes a parse error, any other
error propagates. -/
def _get_end_date (soup : Soup) : Except PyError (Option FieldValue) :=
  match soup.aired_pretag with
  | none => .error (.missingTag "aired")
  | some none => .error .attributeError
  | some (some s) =>
    let aired_text := pyStrip s
    let end_text :=
      if pyContains aired_text " to " then (pySplit aired_text " to ").getD 1 ""
      else aired_text
    if end_text = "?" then .ok none
    else
      match _get_date end_text with
      | .ok end_date => .ok (some (.date end_date))
      | .error .valueError =>
        .error (.parseError "airing end date" ("Cannot process text \"" ++ end_text ++ "\""))
      | .error e => .error e

/-- The four canonical season names accepted by the premiere parser. -/
def canonicalSeasons : List String := ["spring", "summer", "autumn", "winter"]

/-- `_get_airing_premiere`: label "Premiered:"; absent label returns null;
the following link text is lowercased and split on single spaces, and must
unpack into exactly a season and a year (a failed unpacking raises an
uncaught `ValueError`); season "fall" is renamed "autumn", any other
non-canonical season raises a parse error; a non-integer year raises a
parse error; on success the pair (year, season) is returned. -/
def _get_airing_premiere (soup : Soup) : Except PyError (Option FieldValue) :=
  match soup.premiered_pretag with
  | none => .ok none
  | some none => .error .attributeError
  | some (some s) =>
    match pySplit (pyLower s) " " with
    | [season0, yeartext] =>
      if season0 ≠ "fall" ∧ season0 ∉ canonicalSeasons then
        .error (.parseError "premiered" ("Unable to identify season \"" ++ season0 ++ "\""))
      else
        let season := if season0 = "fall" then "autumn" else season0
        match pyInt yeartext with
        | some year => .ok (some (.premiere year season))
        | none =>
          .error (.parseError "premiered" ("Unable to identify year \"" ++ yeartext ++ "\""))
    | _ => .error .valueError

/-- The fixed extraction table of `_process_soup`, in source order. -/
def retrieveTable : List (String × (Soup → Except PyError (Option FieldValue))) :=
  [("name", _get_name),
   ("name_english", _get_english_name),
   ("name_japanese", _get_japanese_name),
   ("format", _get_format),
   ("episodes", _get_episodes),
   ("airing_status", _get_airing_status),
   ("airing_started", _get_start_date),
   ("airing_finished", _get_end_date),
   ("airing_premiere", _get_airing_premiere)]

/-- The nine field names of the anime record, in table order. -/
def fieldNames : List String :=
  ["name", "name_english", "name_japanese", "format", "episodes",
   "airing_status", "airing_started", "airing_finished", "airing_premiere"]

/-- The `try/except ParseError/else` body of the extraction loop, combining
one field's outcome with the outcome of the remaining iterations: a
successful extraction stores its value; a raised parsing-domain error is
caught, storing null and appending the field name to the failure list; any
other raised error aborts the loop and propagates. -/
def processStep (tag : String) (out : Except PyError (Option FieldValue))
    (rest : Except PyError (List (String × Option FieldValue) × List String)) :
    Except PyError (List (String × Option FieldValue) × List String) :=
  match out with
  | .ok result =>
    match rest with
    | .error e => .error e
    | .ok (retrieved, failed) => .ok ((tag, result) :: retrieved, failed)
  | .error e =>
    if e.isParseError then
      match rest with
      | .error e' => .error e'
      | .ok (retrieved, failed) => .ok ((tag, none) :: retrieved, tag :: failed)
    else .error e

/-- The `for tag, func in retrieve.items()` loop of `_process_soup`: each
field's function runs in order and its outcome is folded in by
`processStep`. -/
def processLoop :
    List (String × (Soup → Except PyError (Option FieldValue))) → Soup →
    Except PyError (List (String × Option FieldValue) × List String)
  | [], _ => .ok ([], [])
  | (tag, func) :: rest, soup => processStep tag (func soup) (processLoop rest soup)

/-- `_process_soup`: runs the extraction table and returns the success flag
(`not bool(failed_tags)`) with the retrieved mapping.  The internal failure
list is surfaced as the third component for specification purposes; the
Python function returns `(success, retrieved)` and uses the list only for
the success flag and logging. -/
def _process_soup (soup : Soup) :
    Except PyError (Bool × List (String × Option FieldValue) × List String) :=
  match processLoop retrieveTable soup with
  | .error e => .error e
  | .ok (retrieved, failed_tags) => .ok (failed_tags.isEmpty, retrieved, failed_tags)

/-- HTTP response as consumed by `retrieve_anime`: the `ok` flag, the
numeric status code, and the document parsed from the body. -/
structure Response where
  ok : Bool
  status_code : Int
  soup : Soup
  deriving DecidableEq, Repr

/-- Observable result of `retrieve_anime`: either a bare integer status
code, or the pair of retrieval information and anime record.  Of the
retrieval-information dictionary, the success flag is modelled; the
wall-clock timestamp and the echoed identifier are not. -/
inductive RetrieveResult where
  | statusCode (code : Int)
  | record (success : Bool) (info : List (String × Option FieldValue))
  deriving DecidableEq, Repr

/-- Modelled from the spec: the `retry_on_fail` wrapper (module `Retrieve`,
not part of the embedded source) performs the HTTP GET with bounded retry
and yields either the HTTP response or nothing upon exhausting retries;
`retrieve_anime` is embedded as a function of that outcome.  The source's
`if not response:` guard evaluates Python truthiness, under which `None`
is falsy and so is every non-OK response (a `requests.Response` defines
`__bool__` as `self.ok`), so both cases return the not-found code 404.
The source's subsequent `if not response.ok: return response.status_code`
is kept in the embedding as written; it is only reachable once the
response is OK, so it never fires.  The retrieval-information timestamp
and echoed identifier are not modelled. -/
def retrieve_anime (fetched : Option Response) : Except PyError RetrieveResult :=
  match fetched with
  | none => .ok (.statusCode 404)
  | some response =>
    if !response.ok then .ok (.statusCode 404)
    else if !response.ok then .ok (.statusCode response.status_code)
    else
      match _process_soup response.soup with
      | .error e => .error e
      | .ok (success, info, _) => .ok (.record success info)

/-- A fully well-formed document used to instantiate universally quantified
theorems at a concrete input. -/
def soupFull : Soup where
  name_span := some (some "Cowboy Bebop")
  english_pretag := some (some " Cowboy Bebop ")
  japanese_pretag := some (some " Kaubooi Bibappu ")
  type_pretag := some (some " TV ")
  episodes_pretag := some (some " 26 ")
  status_pretag := some (some " Finished Airing ")
  aired_pretag := some (some "Apr 3, 1998 to Apr 24, 1999")
  premiered_pretag := some (some "Spring 1998")

/-- The record extracted from `soupFull`. -/
def fullRecordList : List (String × Option FieldValue) :=
  [("name", some (.str "Cowboy Bebop")),
   ("name_english", some (.str "Cowboy Bebop")),
   ("name_japanese", some (.str "Kaubooi Bibappu")),
   ("format", some (.str "TV")),
   ("episodes", some (.int 26)),
   ("airing_status", some (.str "Finished Airing")),
   ("airing_started", some (.date ⟨1998, 4, 3⟩)),
   ("airing_finished", some (.date ⟨1999, 4, 24⟩)),
   ("airing_premiere", some (.premiere 1998 "spring"))]

/-! ### Lemmas about the extraction loop -/

theorem processStep_ok_ok (tag : String) (v : Option FieldValue)
    (r : List (String × Option FieldValue)) (f : List String) :
    processStep tag (.ok v) (.ok (r, f)) = .ok ((tag, v) :: r, f) := rfl

theorem processStep_ok_error (tag : String) (v : Option FieldValue) (e : PyError) :
    processStep tag (.ok v) (.error e) = .error e := rfl

theorem processStep_caught_ok (tag : String) (e : PyError)
    (r : List (String × Option FieldValue)) (f : List String)
    (hc : e.isParseError = true) :
    processStep tag (.error e) (.ok (r, f)) = .ok ((tag, none) :: r, tag :: f) := by
  simp [processStep, hc]

theorem processStep_caught_error (tag : String) (e e' : PyError)
    (hc : e.isParseError = true) :
    processStep tag (.error e) (.error e') = .error e' := by
  simp [processStep, hc]

theorem processStep_uncaught (tag : String) (e : PyError)
    (rest : Except PyError (List (String × Option FieldValue) × List String))
    (hc : e.isParseError = false) :
    processStep tag (.error e) rest = .error e := by
  simp [processStep, hc]

/-- Inversion for one loop step: a successful outcome comes from either a
successful extraction or a caught parsing-domain error, in both cases on
top of a successful remainder. -/
theorem processStep_inv (tag : String) (out : Except PyError (Option FieldValue))
    (rest : Except PyError (List (String × Option FieldValue) × List String))
    (r : List (String × Option FieldValue)) (fl : List String)
    (h : processStep tag out rest = .ok (r, fl)) :
    (∃ v r' fl', out = .ok v ∧ rest = .ok (r', fl') ∧
      r = (tag, v) :: r' ∧ fl = fl') ∨
    (∃ e r' fl', out = .error e ∧ e.isParseError = true ∧ rest = .ok (r', fl') ∧
      r = (tag, none) :: r' ∧ fl = tag :: fl') := by
  cases out with
  | ok v =>
    cases rest with
    | error e => rw [processStep_ok_error] at h; exact absurd h (by simp)
    | ok pr =>
      obtain ⟨r', fl'⟩ := pr
      rw [processStep_ok_ok] at h
      simp only [Except.ok.injEq, Prod.mk.injEq] at h
      exact Or.inl ⟨v, r', fl', rfl, rfl, h.1.symm, h.2.symm⟩
  | error e =>
    by_cases hc : e.isParseError
    · cases rest with
      | error e' =>
        rw [processStep_caught_error _ _ _ hc] at h
        exact absurd h (by simp)
      | ok pr =>
        obtain ⟨r', fl'⟩ := pr
        rw [processStep_caught_ok _ _ _ _ hc] at h
        simp only [Except.ok.injEq, Prod.mk.injEq] at h
        exact Or.inr ⟨e, r', fl', rfl, hc, rfl, h.1.symm, h.2.symm⟩
    · rw [processStep_uncaught _ _ _ (by simpa using hc)] at h
      exact absurd h (by simp)

/-- Inversion for the loop on a nonempty table. -/
theorem processLoop_cons_inv (tag : String)
    (func : Soup → Except PyError (Option FieldValue))
    (rest : List (String × (Soup → Except PyError (Option FieldValue))))
    (soup : Soup) (r : List (String × Option FieldValue)) (fl : List String)
    (h : processLoop ((tag, func) :: rest) soup = .ok (r, fl)) :
    (∃ v r' fl', func soup = .ok v ∧ processLoop rest soup = .ok (r', fl') ∧
      r = (tag, v) :: r' ∧ fl = fl') ∨
    (∃ e r' fl', func soup = .error e ∧ e.isParseError = true ∧
      processLoop rest soup = .ok (r', fl') ∧ r = (tag, none) :: r' ∧ fl = tag :: fl') := by
  rw [processLoop] at h
  exact processStep_inv _ _ _ _ _ h

/-- The keys of the produced record are exactly the keys of the table, in
order. -/
theorem processLoop_keys
    (table : List (String × (Soup → Except PyError (Option FieldValue))))
    (soup : Soup) (r : List (String × Option FieldValue)) (fl : List String)
    (h : processLoop table soup = .ok (r, fl)) :
    r.map Prod.fst = table.map Prod.fst := by
  induction table generalizing r fl with
  | nil =>
    rw [processLoop] at h
    simp only [Except.ok.injEq, Prod.mk.injEq] at h
    obtain ⟨h1, h2⟩ := h
    subst h1
    rfl
  | cons head rest ih =>
    obtain ⟨tag, func⟩ := head
    rcases processLoop_cons_inv _ _ _ _ _ _ h with
      ⟨v, r', fl', _, hrec, hr, _⟩ | ⟨e, r', fl', _, _, hrec, hr, _⟩
    · subst hr; simp [ih r' fl' hrec]
    · subst hr; simp [ih r' fl' hrec]

/-- Every table entry whose function succeeds contributes its value to the
record. -/
theorem processLoop_mem_ok
    (table : List (String × (Soup → Except PyError (Option FieldValue))))
    (soup : Soup) (r : List (String × Option FieldValue)) (fl : List String)
    (tag : String) (func : Soup → Except PyError (Option FieldValue))
    (v : Option FieldValue)
    (h : processLoop table soup = .ok (r, fl))
    (hmem : (tag, func) ∈ table) (hv : func soup = .ok v) :
    (tag, v) ∈ r := by
  induction table generalizing r fl with
  | nil => cases hmem
  | cons head rest ih =>
    obtain ⟨tag0, func0⟩ := head
    rcases processLoop_cons_inv _ _ _ _ _ _ h with
      ⟨v0, r', fl', hf0, hrec, hr, _⟩ | ⟨e0, r', fl', hf0, _, hrec, hr, _⟩
    · subst hr
      rcases List.mem_cons.mp hmem with heq | htail
      · injection heq with h1 h2
        subst h1; subst h2
        rw [hf0] at hv
        injection hv with hv'
        subst hv'
        exact List.mem_cons_self _ _
      · exact List.mem_cons_of_mem _ (ih r' fl' hrec htail)
    · subst hr
      rcases List.mem_cons.mp hmem with heq | htail
      · injection heq with h1 h2
        subst h1; subst h2
        rw [hf0] at hv
        exact absurd hv (by simp)
      · exact List.mem_cons_of_mem _ (ih r' fl' hrec htail)

/-- Every table entry whose function raises a parsing-domain error is
recorded as null, and its name enters the failure list. -/
theorem processLoop_mem_caught
    (table : List (String × (Soup → Except PyError (Option FieldValue))))
    (soup : Soup) (r : List (String × Option FieldValue)) (fl : List String)
    (tag : String) (func : Soup → Except PyError (Option FieldValue))
    (e : PyError)
    (h : processLoop table soup = .ok (r, fl))
    (hmem : (tag, func) ∈ table) (he : func soup = .error e)
    (_hc : e.isParseError = true) :
    (tag, none) ∈ r ∧ tag ∈ fl := by
  induction table generalizing r fl with
  | nil => cases hmem
  | cons head rest ih =>
    obtain ⟨tag0, func0⟩ := head
    rcases processLoop_cons_inv _ _ _ _ _ _ h with
      ⟨v0, r', fl', hf0, hrec, hr, hfl⟩ | ⟨e0, r', fl', hf0, _, hrec, hr, hfl⟩
    · subst hr; subst hfl
      rcases List.mem_cons.mp hmem with heq | htail
      · injection heq with h1 h2
        subst h1; subst h2
        rw [hf0] at he
        exact absurd he (by simp)
      · obtain ⟨h1, h2⟩ := ih r' fl hrec htail
        exact ⟨List.mem_cons_of_mem _ h1, h2⟩
    · subst hr; subst hfl
      rcases List.mem_cons.mp hmem with heq | htail
      · injection heq with h1 h2
        subst h1; subst h2
        exact ⟨List.mem_cons_self _ _, List.mem_cons_self _ _⟩
      · obtain ⟨h1, h2⟩ := ih r' fl' hrec htail
        exact ⟨List.mem_cons_of_mem _ h1, List.mem_cons_of_mem _ h2⟩

/-- Every name in the failure list is recorded as null in the record. -/
theorem processLoop_fl_mem
    (table : List (String × (Soup → Except PyError (Option FieldValue))))
    (soup : Soup) (r : List (String × Option FieldValue)) (fl : List String)
    (tag : String)
    (h : processLoop table soup = .ok (r, fl)) (hfl : tag ∈ fl) :
    (tag, none) ∈ r := by
  induction table generalizing r fl with
  | nil =>
    rw [processLoop] at h
    simp only [Except.ok.injEq, Prod.mk.injEq] at h
    obtain ⟨h1, h2⟩ := h
    subst h2
    cases hfl
  | cons head rest ih =>
    obtain ⟨tag0, func0⟩ := head
    rcases processLoop_cons_inv _ _ _ _ _ _ h with
      ⟨v0, r', fl', hf0, hrec, hr, hfl'⟩ | ⟨e0, r', fl', hf0, _, hrec, hr, hfl'⟩
    · subst hr; subst hfl'
      exact List.mem_cons_of_mem _ (ih r' fl hrec hfl)
    · subst hr; subst hfl'
      rcases List.mem_cons.mp hfl with heq | htail
      · subst heq
        exact List.mem_cons_self _ _
      · exact List.mem_cons_of_mem _ (ih r' fl' hrec htail)

/-- The failure list is empty exactly when every table entry's function
succeeds. -/
theorem processLoop_empty_iff
    (table : List (String × (Soup → Except PyError (Option FieldValue))))
    (soup : Soup) (r : List (String × Option FieldValue)) (fl : List String)
    (h : processLoop table soup = .ok (r, fl)) :
    (fl = [] ↔ ∀ p ∈ table, ∃ v, p.2 soup = Except.ok v) := by
  induction table generalizing r fl with
  | nil =>
    rw [processLoop] at h
    simp only [Except.ok.injEq, Prod.mk.injEq] at h
    obtain ⟨h1, h2⟩ := h
    subst h2
    simp
  | cons head rest ih =>
    obtain ⟨tag0, func0⟩ := head
    rcases processLoop_cons_inv _ _ _ _ _ _ h with
      ⟨v0, r', fl', hf0, hrec, hr, hfl'⟩ | ⟨e0, r', fl', hf0, hce, hrec, hr, hfl'⟩
    · subst hfl'
      constructor
      · intro hnil p hp
        rcases List.mem_cons.mp hp with heq | htail
        · subst heq
          exact ⟨v0, hf0⟩
        · exact ((ih r' fl hrec).mp hnil) p htail
      · intro hall
        exact (ih r' fl hrec).mpr (fun p hp => hall p (List.mem_cons_of_mem _ hp))
    · subst hfl'
      constructor
      · intro hnil; cases hnil
      · intro hall
        obtain ⟨v, hv⟩ := hall (tag0, func0) (List.mem_cons_self _ _)
        have hv' : func0 soup = Except.ok v := hv
        rw [hf0] at hv'
        exact absurd hv' (by simp)

/-- If some table entry's function raises an error outside the
parsing-domain class, the loop itself ends with such an error. -/
theorem processLoop_uncaught
    (table : List (String × (Soup → Except PyError (Option FieldValue))))
    (soup : Soup)
    (tag : String) (func : Soup → Except PyError (Option FieldValue))
    (e : PyError)
    (hmem : (tag, func) ∈ table) (he : func soup = .error e)
    (hc : e.isParseError = false) :
    ∃ e', processLoop table soup = .error e' ∧ e'.isParseError = false := by
  induction table with
  | nil => cases hmem
  | cons head rest ih =>
    obtain ⟨tag0, func0⟩ := head
    rcases List.mem_cons.mp hmem with heq | htail
    · injection heq with h1 h2
      subst h1; subst h2
      refine ⟨e, ?_, hc⟩
      rw [processLoop, he, processStep_uncaught _ _ _ hc]
    · obtain ⟨e', he', hc'⟩ := ih htail
      rw [processLoop]
      cases hf0 : func0 soup with
      | ok v0 =>
        exact ⟨e', by rw [he', processStep_ok_error], hc'⟩
      | error e0 =>
        by_cases hc0 : e0.isParseError
        · exact ⟨e', by rw [he', processStep_caught_error _ _ _ hc0], hc'⟩
        · exact ⟨e0, processStep_uncaught _ _ _ (by simpa using hc0),
            by simpa using hc0⟩

/-- The loop only looks at the document through the table's functions. -/
theorem processLoop_congr
    (table : List (String × (Soup → Except PyError (Option FieldValue))))
    (s0 s1 : Soup) (hag : ∀ p ∈ table, p.2 s0 = p.2 s1) :
    processLoop table s0 = processLoop table s1 := by
  induction table with
  | nil => rfl
  | cons head rest ih =>
    obtain ⟨tag0, func0⟩ := head
    have h0 : func0 s0 = func0 s1 := hag (tag0, func0) (List.mem_cons_self _ _)
    rw [processLoop, processLoop, h0,
      ih (fun p hp => hag p (List.mem_cons_of_mem _ hp))]

/-- Running the loop on a concatenated table concatenates records and
failure lists, with errors propagating from either part. -/
theorem processLoop_append
    (t1 t2 : List (String × (Soup → Except PyError (Option FieldValue))))
    (soup : Soup) :
    processLoop (t1 ++ t2) soup =
      match processLoop t1 soup with
      | .error e => .error e
      | .ok (r1, f1) =>
        match processLoop t2 soup with
        | .error e => .error e
        | .ok (r2, f2) => .ok (r1 ++ r2, f1 ++ f2) := by
  induction t1 with
  | nil =>
    simp only [List.nil_append]
    cases processLoop t2 soup with
    | error e => rfl
    | ok pr => obtain ⟨r2, f2⟩ := pr; simp [processLoop]
  | cons head rest ih =>
    obtain ⟨tag0, func0⟩ := head
    rw [List.cons_append, processLoop, processLoop, ih]
    cases hf0 : func0 soup with
    | ok v0 =>
      cases processLoop rest soup with
      | error e => rfl
      | ok pr =>
        obtain ⟨r1, f1⟩ := pr
        cases processLoop t2 soup with
        | error e => rfl
        | ok pr2 => obtain ⟨r2, f2⟩ := pr2; simp [processStep]
    | error e0 =>
      by_cases hc : e0.isParseError
      · cases processLoop rest soup with
        | error e' => simp [processStep, hc]
        | ok pr =>
          obtain ⟨r1, f1⟩ := pr
          cases processLoop t2 soup with
          | error e' => simp [processStep, hc]
          | ok pr2 => obtain ⟨r2, f2⟩ := pr2; simp [processStep, hc]
      · simp [processStep, hc]

/-- Looking a key up in an association list with distinct keys yields any
value the key is paired with. -/
theorem lookup_eq_of_mem
    (r : List (String × Option FieldValue)) (tag : String)
    (v : Option FieldValue)
    (hnd : (r.map Prod.fst).Nodup) (hm : (tag, v) ∈ r) :
    r.lookup tag = some v := by
  induction r with
  | nil => cases hm
  | cons head rest ih =>
    obtain ⟨k, w⟩ := head
    have hnd2 : k ∉ rest.map Prod.fst ∧ (rest.map Prod.fst).Nodup :=
      List.nodup_cons.mp (by simpa using hnd)
    rcases List.mem_cons.mp hm with heq | htail
    · injection heq with h1 h2
      subst h1; subst h2
      simp [List.lookup]
    · have hk : (tag == k) = false := by
        apply beq_eq_false_iff_ne.mpr
        rintro rfl
        exact hnd2.1 (List.mem_map.mpr ⟨(tag, v), htail, rfl⟩)
      simp only [List.lookup, hk]
      exact ih hnd2.2 htail

/-- Replacing the value stored at one key does not affect lookups of other
keys. -/
theorem lookup_append_ne
    (l1 l2 : List (String × Option FieldValue)) (k : String)
    (v w : Option FieldValue) (tag : String) (hne : tag ≠ k) :
    (l1 ++ (k, v) :: l2).lookup tag = (l1 ++ (k, w) :: l2).lookup tag := by
  induction l1 with
  | nil =>
    have hk : (tag == k) = false := beq_eq_false_iff_ne.mpr hne
    simp [List.lookup, hk]
  | cons head rest ih =>
    obtain ⟨a, b⟩ := head
    by_cases hak : tag = a
    · subst hak
      simp [List.lookup]
    · have hk : (tag == a) = false := beq_eq_false_iff_ne.mpr hak
      simp only [List.cons_append, List.lookup, hk]
      exact ih

/-- Inversion of `_process_soup`: a successful result comes from a
successful loop run, with the success flag computed from the failure
list. -/
theorem _process_soup_inv (soup : Soup) (b : Bool)
    (r : List (String × Option FieldValue)) (fl : List String)
    (h : _process_soup soup = .ok (b, r, fl)) :
    processLoop retrieveTable soup = .ok (r, fl) ∧ b = fl.isEmpty := by
  rw [_process_soup] at h
  cases hp : processLoop retrieveTable soup with
  | error e => rw [hp] at h; exact absurd h (by simp)
  | ok pr =>
    obtain ⟨r0, f0⟩ := pr
    rw [hp] at h
    simp only [Except.ok.injEq, Prod.mk.injEq] at h
    obtain ⟨h1, h2, h3⟩ := h
    subst h2; subst h3; subst h1
    exact ⟨rfl, rfl⟩

/-- An error ending the loop is the result of `_process_soup`. -/
theorem _process_soup_error (soup : Soup) (e : PyError)
    (h : processLoop retrieveTable soup = .error e) :
    _process_soup soup = .error e := by
  rw [_process_soup, h]

/-- The table's keys are the nine field names. -/
theorem retrieveTable_keys : retrieveTable.map Prod.fst = fieldNames := rfl

/-! ### Claim theorems -/

/-- C1: for every parsed document, the pair returned by `_process_soup`
has success equal to true exactly when the failure list collected over the
nine fields is empty, which holds exactly when no field's extraction
function raised an error. -/
theorem C1_success_iff_failures_empty (soup : Soup) (b : Bool)
    (r : List (String × Option FieldValue)) (fl : List String)
    (h : _process_soup soup = .ok (b, r, fl)) :
    (b = true ↔ fl = []) ∧
    (fl = [] ↔ ∀ p ∈ retrieveTable, ∃ v, p.2 soup = Except.ok v) := by
  obtain ⟨hp, hb⟩ := _process_soup_inv _ _ _ _ h
  subst hb
  exact ⟨List.isEmpty_iff, processLoop_empty_iff _ _ _ _ hp⟩

/-- Witness for C1, at a fully well-formed document. -/
theorem C1_success_iff_failures_empty_witness :
    _process_soup soupFull = .ok (true, fullRecordList, []) ∧
    ((true = true ↔ ([] : List String) = []) ∧
     (([] : List String) = [] ↔ ∀ p ∈ retrieveTable, ∃ v, p.2 soupFull = Except.ok v)) :=
  ⟨by decide, C1_success_iff_failures_empty soupFull true fullRecordList [] (by decide)⟩

/-- The document of `soupFull` with the "Type:" label removed. -/
def soupNoType : Soup := {soupFull with type_pretag := none}

/-- The record extracted from `soupNoType`. -/
def recordNoType : List (String × Option FieldValue) :=
  [("name", some (.str "Cowboy Bebop")),
   ("name_english", some (.str "Cowboy Bebop")),
   ("name_japanese", some (.str "Kaubooi Bibappu")),
   ("format", none),
   ("episodes", some (.int 26)),
   ("airing_status", some (.str "Finished Airing")),
   ("airing_started", some (.date ⟨1998, 4, 3⟩)),
   ("airing_finished", some (.date ⟨1999, 4, 24⟩)),
   ("airing_premiere", some (.premiere 1998 "spring"))]

/-- C2: the record returned by `_process_soup` has exactly the nine field
names as its keys, in table order; every field that failed is present and
mapped to the explicit null value, and so is every field whose extraction
returned null (as optional fields do when their label is missing) — no key
is ever omitted. -/
theorem C2_record_keys_and_nulls (soup : Soup) (b : Bool)
    (r : List (String × Option FieldValue)) (fl : List String)
    (h : _process_soup soup = .ok (b, r, fl)) :
    r.map Prod.fst = fieldNames ∧
    (∀ tag, tag ∈ fl → r.lookup tag = some none) ∧
    (∀ p ∈ retrieveTable, p.2 soup = Except.ok none → r.lookup p.1 = some none) := by
  obtain ⟨hp, _⟩ := _process_soup_inv _ _ _ _ h
  have hkeys : r.map Prod.fst = fieldNames := by
    rw [processLoop_keys _ _ _ _ hp]; rfl
  have hnd : (r.map Prod.fst).Nodup := by rw [hkeys]; decide
  refine ⟨hkeys, ?_, ?_⟩
  · intro tag htag
    exact lookup_eq_of_mem _ _ _ hnd (processLoop_fl_mem _ _ _ _ _ hp htag)
  · rintro ⟨tag, func⟩ hp2 hv
    exact lookup_eq_of_mem _ _ _ hnd
      (processLoop_mem_ok _ _ _ _ tag func none hp hp2 hv)

/-- Witness for C2, at a document whose "Type:" label is missing. -/
theorem C2_record_keys_and_nulls_witness :
    _process_soup soupNoType = .ok (false, recordNoType, ["format"]) ∧
    (recordNoType.map Prod.fst = fieldNames ∧
     (∀ tag, tag ∈ ["format"] → recordNoType.lookup tag = some none) ∧
     (∀ p ∈ retrieveTable, p.2 soupNoType = Except.ok none →
       recordNoType.lookup p.1 = some none)) :=
  ⟨by decide, C2_record_keys_and_nulls soupNoType false recordNoType ["format"] (by decide)⟩

/-- C3: a missing-tag or parse error raised by a field's extraction
function is caught by `_process_soup` — the field is recorded as null and
its name appended to the failure list, and the error does not escape —
whereas an error outside the parsing-domain class is not caught and
propagates to the caller. -/
theorem C3_field_error_scoping (soup : Soup) (tag : String)
    (func : Soup → Except PyError (Option FieldValue)) (e : PyError)
    (hmem : (tag, func) ∈ retrieveTable) (herr : func soup = .error e) :
    (e.isParseError = true →
      ∀ b r fl, _process_soup soup = .ok (b, r, fl) →
        tag ∈ fl ∧ r.lookup tag = some none) ∧
    (e.isParseError = false →
      ∃ e2, _process_soup soup = .error e2 ∧ e2.isParseError = false) := by
  constructor
  · intro hc b r fl h
    obtain ⟨hp, _⟩ := _process_soup_inv _ _ _ _ h
    obtain ⟨h1, h2⟩ := processLoop_mem_caught _ _ _ _ _ _ _ hp hmem herr hc
    have hnd : (r.map Prod.fst).Nodup := by
      rw [processLoop_keys _ _ _ _ hp]; decide
    exact ⟨h2, lookup_eq_of_mem _ _ _ hnd h1⟩
  · intro hc
    obtain ⟨e2, he2, hc2⟩ := processLoop_uncaught _ _ _ _ _ hmem herr hc
    exact ⟨e2, _process_soup_error _ _ he2, hc2⟩

/-- The document of `soupFull` with the "Episodes:" label removed. -/
def soupNoEpisodes : Soup := {soupFull with episodes_pretag := none}

/-- Witness for C3, at a document whose "Episodes:" label is missing, so
that the episodes function raises a missing-tag error, which is in the
caught class. -/
theorem C3_field_error_scoping_witness :
    (("episodes", _get_episodes) ∈ retrieveTable ∧
      _get_episodes soupNoEpisodes = .error (.missingTag "episodes")) ∧
    (((PyError.missingTag "episodes").isParseError = true →
      ∀ b r fl, _process_soup soupNoEpisodes = .ok (b, r, fl) →
        "episodes" ∈ fl ∧ r.lookup "episodes" = some none) ∧
     ((PyError.missingTag "episodes").isParseError = false →
      ∃ e2, _process_soup soupNoEpisodes = .error e2 ∧ e2.isParseError = false)) :=
  ⟨⟨by simp [retrieveTable], rfl⟩,
   C3_field_error_scoping soupNoEpisodes "episodes" _get_episodes
     (.missingTag "episodes") (by simp [retrieveTable]) rfl⟩

/-- A non-OK response with status code 500, the failing input of C4. -/
def respServerError : Response := ⟨false, 500, soupFull⟩

/-- C4: evaluation at the failing input.  A fetch resolving to a non-OK
response with status code 500 makes `retrieve_anime` return the not-found
code 404, not the response's status code: a non-OK response is already
falsy for the source's `if not response:` guard, so the subsequent
`return response.status_code` line never runs. -/
theorem C4_nonok_evaluates_to_404 :
    respServerError.ok = false ∧
    respServerError.status_code = 500 ∧
    retrieve_anime (some respServerError) = .ok (.statusCode 404) ∧
    retrieve_anime (some respServerError) ≠ .ok (.statusCode 500) := by
  decide

/-- C5: episodes extraction — a sibling text that trims and lowercases to
"unknown" yields the successful value 0; a text accepted by `int` yields
that integer; any other text raises a parse error; an absent "Episodes:"
label raises a missing-tag error. -/
theorem C5_episodes (soup : Soup) :
    (soup.episodes_pretag = none →
      _get_episodes soup = .error (.missingTag "episodes")) ∧
    (∀ s, soup.episodes_pretag = some (some s) →
      (pyLower (pyStrip s) = "unknown" → _get_episodes soup = .ok (some (.int 0))) ∧
      (∀ n, pyInt (pyLower (pyStrip s)) = some n →
        _get_episodes soup = .ok (some (.int n))) ∧
      (pyLower (pyStrip s) ≠ "unknown" → pyInt (pyLower (pyStrip s)) = none →
        _get_episodes soup = .error (.parseError "episodes"
          ("Unable to convert text \"" ++ pyLower (pyStrip s) ++ "\" to int")))) := by
  constructor
  · intro h0; simp [_get_episodes, h0]
  · intro s hs
    refine ⟨?_, ?_, ?_⟩
    · intro hu; simp [_get_episodes, hs, hu]
    · intro n hn
      have hu : pyLower (pyStrip s) ≠ "unknown" := by
        intro he
        rw [he] at hn
        have hnone : pyInt "unknown" = none := by decide
        rw [hnone] at hn
        cases hn
      simp [_get_episodes, hs, hu, hn]
    · intro hu hn; simp [_get_episodes, hs, hu, hn]

/-- The document of `soupFull` with episodes text "12". -/
def soupEpisodes12 : Soup := {soupFull with episodes_pretag := some (some "12")}

/-- Witness for C5, at episodes text "12", which parses to 12. -/
theorem C5_episodes_witness :
    (soupEpisodes12.episodes_pretag = some (some "12") ∧
      pyInt (pyLower (pyStrip "12")) = some 12) ∧
    _get_episodes soupEpisodes12 = .ok (some (.int 12)) :=
  ⟨⟨rfl, by decide⟩,
   ((C5_episodes soupEpisodes12).2 "12" rfl).2.1 12 (by decide)⟩

/-- The document of `soupFull` with status sibling text " finished airing"
(a leading space, no trailing one). -/
def soupPaddedStatus : Soup :=
  {soupFull with status_pretag := some (some " finished airing")}

/-- C6 counterexample: the claim says a sibling text is mapped by
case-insensitive matching and every other text raises a parse error.  The
text " finished airing" (with a leading space) equals, case-insensitively,
neither "finished airing" nor "currently airing", so under the claim it is
"other text" and must raise a parse error; the code instead succeeds with
"Finished Airing", because it also strips surrounding whitespace before
matching. -/
theorem C6_counterexample :
    soupPaddedStatus.status_pretag = some (some " finished airing") ∧
    pyLower " finished airing" ≠ "finished airing" ∧
    pyLower " finished airing" ≠ "currently airing" ∧
    _get_airing_status soupPaddedStatus = .ok (some (.str "Finished Airing")) := by
  decide

/-- C6 (amended): with the sibling text first trimmed of surrounding
whitespace and lowercased, "finished airing" maps to "Finished Airing",
"currently airing" maps to "Currently Airing", any other text raises a
parse error, and an absent "Status:" label raises a missing-tag error. -/
theorem C6_airing_status (soup : Soup) :
    (soup.status_pretag = none →
      _get_airing_status soup = .error (.missingTag "status")) ∧
    (∀ s, soup.status_pretag = some (some s) →
      (pyLower (pyStrip s) = "finished airing" →
        _get_airing_status soup = .ok (some (.str "Finished Airing"))) ∧
      (pyLower (pyStrip s) = "currently airing" →
        _get_airing_status soup = .ok (some (.str "Currently Airing"))) ∧
      (pyLower (pyStrip s) ≠ "finished airing" →
       pyLower (pyStrip s) ≠ "currently airing" →
        _get_airing_status soup = .error (.parseError "status"
          ("Unable to identify text \"" ++ pyLower (pyStrip s) ++ "\"")))) := by
  constructor
  · intro h0; simp [_get_airing_status, h0]
  · intro s hs
    refine ⟨?_, ?_, ?_⟩
    · intro hf; simp [_get_airing_status, hs, hf]
    · intro hc
      have hf : pyLower (pyStrip s) ≠ "finished airing" := by
        rw [hc]; decide
      simp [_get_airing_status, hs, hf, hc]
    · intro hf hc; simp [_get_airing_status, hs, hf, hc]

/-- Witness for the amended C6, at the status text " Finished Airing " of
`soupFull`. -/
theorem C6_airing_status_witness :
    (soupFull.status_pretag = some (some " Finished Airing ") ∧
      pyLower (pyStrip " Finished Airing ") = "finished airing") ∧
    _get_airing_status soupFull = .ok (some (.str "Finished Airing")) :=
  ⟨⟨rfl, by decide⟩,
   ((C6_airing_status soupFull).2 " Finished Airing " rfl).1 (by decide)⟩

/-- C7: for a present "Aired:" label, the start date is the date parsed
from the text before the " to " separator (the whole trimmed text when the
separator is absent) and the end date is the date parsed from the text
after the separator (or the whole text), except that end text "?" yields
null. -/
theorem C7_aired_dates (soup : Soup) (s : String)
    (hs : soup.aired_pretag = some (some s)) :
    (∀ d, _get_date ((pySplit (pyStrip s) " to ").headD "") = .ok d →
      _get_start_date soup = .ok (some (.date d))) ∧
    ((if pyContains (pyStrip s) " to " then (pySplit (pyStrip s) " to ").getD 1 ""
        else pyStrip s) = "?" →
      _get_end_date soup = .ok none) ∧
    (∀ d, (if pyContains (pyStrip s) " to " then (pySplit (pyStrip s) " to ").getD 1 ""
        else pyStrip s) ≠ "?" →
      _get_date (if pyContains (pyStrip s) " to " then (pySplit (pyStrip s) " to ").getD 1 ""
        else pyStrip s) = .ok d →
      _get_end_date soup = .ok (some (.date d))) := by
  refine ⟨?_, ?_, ?_⟩
  · intro d hd
    simp only [List.headD_eq_head?_getD] at hd
    simp [_get_start_date, hs, hd]
  · intro hq
    simp only [List.getD_eq_getElem?_getD] at hq
    simp [_get_end_date, hs, hq]
  · intro d hq hd
    simp only [List.getD_eq_getElem?_getD] at hq hd
    simp [_get_end_date, hs, hq, hd]

/-- The document of `soupFull` with aired text "Apr 3, 2015 to ?". -/
def soupAiredQ : Soup :=
  {soupFull with aired_pretag := some (some "Apr 3, 2015 to ?")}

/-- Witness for C7, at the spec's example "Apr 3, 2015 to ?", which yields
start date 2015-04-03 and a null end date. -/
theorem C7_aired_dates_witness :
    (soupAiredQ.aired_pretag = some (some "Apr 3, 2015 to ?") ∧
      _get_date ((pySplit (pyStrip "Apr 3, 2015 to ?") " to ").headD "") =
        .ok ⟨2015, 4, 3⟩ ∧
      (if pyContains (pyStrip "Apr 3, 2015 to ?") " to " then
          (pySplit (pyStrip "Apr 3, 2015 to ?") " to ").getD 1 ""
        else pyStrip "Apr 3, 2015 to ?") = "?") ∧
    (_get_start_date soupAiredQ = .ok (some (.date ⟨2015, 4, 3⟩)) ∧
     _get_end_date soupAiredQ = .ok none) :=
  ⟨⟨rfl, by decide, by decide⟩,
   ⟨(C7_aired_dates soupAiredQ "Apr 3, 2015 to ?" rfl).1 ⟨2015, 4, 3⟩ (by decide),
    (C7_aired_dates soupAiredQ "Apr 3, 2015 to ?" rfl).2.1 (by decide)⟩⟩

/-- C8: premiere extraction — an absent "Premiered:" label yields null
successfully; otherwise the lowercased link text, split into a season and
a year, is mapped with season "fall" renamed "autumn"; a season outside
the four canonical names raises a parse error, a non-integer year raises a
parse error, and on success the (year, season) pair is returned. -/
theorem C8_premiere (soup : Soup) :
    (soup.premiered_pretag = none → _get_airing_premiere soup = .ok none) ∧
    (∀ s season0 yeartext, soup.premiered_pretag = some (some s) →
      pySplit (pyLower s) " " = [season0, yeartext] →
      ((∀ y, season0 = "fall" → pyInt yeartext = some y →
        _get_airing_premiere soup = .ok (some (.premiere y "autumn"))) ∧
       (∀ y, season0 ∈ canonicalSeasons → pyInt yeartext = some y →
        _get_airing_premiere soup = .ok (some (.premiere y season0))) ∧
       (season0 ≠ "fall" → season0 ∉ canonicalSeasons →
        _get_airing_premiere soup = .error (.parseError "premiered"
          ("Unable to identify season \"" ++ season0 ++ "\""))) ∧
       ((season0 = "fall" ∨ season0 ∈ canonicalSeasons) → pyInt yeartext = none →
        _get_airing_premiere soup = .error (.parseError "premiered"
          ("Unable to identify year \"" ++ yeartext ++ "\""))))) := by
  constructor
  · intro h0; simp [_get_airing_premiere, h0]
  · intro s season0 yeartext hs hsplit
    refine ⟨?_, ?_, ?_, ?_⟩
    · intro y hf hy
      subst hf
      simp [_get_airing_premiere, hs, hsplit, hy]
    · intro y hcanon hy
      have hf : season0 ≠ "fall" := by
        intro he
        rw [he] at hcanon
        exact absurd hcanon (by decide)
      simp [_get_airing_premiere, hs, hsplit, hf, hcanon, hy]
    · intro hf hnc
      simp [_get_airing_premiere, hs, hsplit, hf, hnc]
    · rintro (hf | hcanon) hy
      · subst hf
        simp [_get_airing_premiere, hs, hsplit, hy]
      · have hf : season0 ≠ "fall" := by
          intro he
          rw [he] at hcanon
          exact absurd hcanon (by decide)
        simp [_get_airing_premiere, hs, hsplit, hf, hcanon, hy]

/-- The document of `soupFull` with premiere link text "Fall 2014". -/
def soupPremFall : Soup :=
  {soupFull with premiered_pretag := some (some "Fall 2014")}

/-- Witness for C8, at the spec's example "Fall 2014", which yields the
pair (2014, "autumn"). -/
theorem C8_premiere_witness :
    (soupPremFall.premiered_pretag = some (some "Fall 2014") ∧
      pySplit (pyLower "Fall 2014") " " = ["fall", "2014"] ∧
      pyInt "2014" = some 2014) ∧
    _get_airing_premiere soupPremFall = .ok (some (.premiere 2014 "autumn")) :=
  ⟨⟨rfl, by decide, by decide⟩,
   ((C8_premiere soupPremFall).2 "Fall 2014" "fall" "2014" rfl (by decide)).1
     2014 rfl (by decide)⟩

/-- The three table entries before the format field. -/
def tableBeforeFormat : List (String × (Soup → Except PyError (Option FieldValue))) :=
  [("name", _get_name),
   ("name_english", _get_english_name),
   ("name_japanese", _get_japanese_name)]

/-- The five table entries after the format field. -/
def tableAfterFormat : List (String × (Soup → Except PyError (Option FieldValue))) :=
  [("episodes", _get_episodes),
   ("airing_status", _get_airing_status),
   ("airing_started", _get_start_date),
   ("airing_finished", _get_end_date),
   ("airing_premiere", _get_airing_premiere)]

theorem retrieveTable_split :
    retrieveTable = tableBeforeFormat ++ ("format", _get_format) :: tableAfterFormat := rfl

/-- Every extraction function other than the format one reads only its own
component of the document, so changing the "Type:" query outcome does not
change its result. -/
theorem agree_except_type (soup : Soup) (x y : Option (Option String)) :
    ∀ p ∈ tableBeforeFormat ++ tableAfterFormat,
      p.2 {soup with type_pretag := x} = p.2 {soup with type_pretag := y} := by
  intro p hp
  simp [tableBeforeFormat, tableAfterFormat] at hp
  rcases hp with rfl | rfl | rfl | rfl | rfl | rfl | rfl | rfl <;> rfl

/-- C9: removing the "Type:" label from an otherwise well-formed document
flips overall success to false, maps the format field to null and puts
"format" into the failure list, while every other field's outcome — value
and failure status alike — is exactly what it is on the same document with
the label present. -/
theorem C9_missing_type_frame (soup : Soup) (v : String) (b : Bool)
    (r1 : List (String × Option FieldValue)) (fl1 : List String)
    (h : _process_soup {soup with type_pretag := some (some v)} = .ok (b, r1, fl1)) :
    ∃ r0 fl0, _process_soup {soup with type_pretag := none} = .ok (false, r0, fl0) ∧
      "format" ∈ fl0 ∧ r0.lookup "format" = some none ∧
      (∀ tag, tag ≠ "format" → r0.lookup tag = r1.lookup tag) ∧
      (∀ tag, tag ≠ "format" → (tag ∈ fl0 ↔ tag ∈ fl1)) := by
  obtain ⟨hp, hb⟩ := _process_soup_inv _ _ _ _ h
  have hagree := agree_except_type soup none (some (some v))
  have hagreePre : ∀ p ∈ tableBeforeFormat,
      p.2 {soup with type_pretag := none} = p.2 {soup with type_pretag := some (some v)} :=
    fun p hpm => hagree p (List.mem_append.mpr (Or.inl hpm))
  have hagreePost : ∀ p ∈ tableAfterFormat,
      p.2 {soup with type_pretag := none} = p.2 {soup with type_pretag := some (some v)} :=
    fun p hpm => hagree p (List.mem_append.mpr (Or.inr hpm))
  rw [retrieveTable_split, processLoop_append] at hp
  cases hpre : processLoop tableBeforeFormat {soup with type_pretag := some (some v)} with
  | error e => rw [hpre] at hp; exact absurd hp (by simp)
  | ok pr1 =>
  obtain ⟨a1, f1⟩ := pr1
  rw [hpre] at hp
  cases hpost : processLoop tableAfterFormat {soup with type_pretag := some (some v)} with
  | error e =>
    exfalso
    rw [processLoop, hpost] at hp
    have hfmt1 : _get_format {soup with type_pretag := some (some v)} =
        .ok (some (.str (pyStrip v))) := rfl
    rw [hfmt1, processStep_ok_error] at hp
    exact absurd hp (by simp)
  | ok pr2 =>
  obtain ⟨a2, f2⟩ := pr2
  have hfmt1 : _get_format {soup with type_pretag := some (some v)} =
      .ok (some (.str (pyStrip v))) := rfl
  rw [processLoop, hpost, hfmt1, processStep_ok_ok] at hp
  simp only [Except.ok.injEq, Prod.mk.injEq] at hp
  obtain ⟨hr1, hfl1⟩ := hp
  have hpre0 : processLoop tableBeforeFormat {soup with type_pretag := none} = .ok (a1, f1) := by
    rw [processLoop_congr tableBeforeFormat _ _ hagreePre, hpre]
  have hpost0 : processLoop tableAfterFormat {soup with type_pretag := none} = .ok (a2, f2) := by
    rw [processLoop_congr tableAfterFormat _ _ hagreePost, hpost]
  have hfmt0 : _get_format {soup with type_pretag := none} =
      .error (.missingTag "type") := rfl
  have hloop0 : processLoop retrieveTable {soup with type_pretag := none} =
      .ok (a1 ++ ("format", none) :: a2, f1 ++ "format" :: f2) := by
    rw [retrieveTable_split, processLoop_append, hpre0, processLoop, hpost0, hfmt0,
      processStep_caught_ok "format" (.missingTag "type") a2 f2 rfl]
  refine ⟨a1 ++ ("format", none) :: a2, f1 ++ "format" :: f2, ?_, ?_, ?_, ?_, ?_⟩
  · rw [_process_soup, hloop0]
    have hne : (f1 ++ "format" :: f2).isEmpty = false := by
      cases f1 <;> rfl
    simp [hne]
  · exact List.mem_append.mpr (Or.inr (List.mem_cons_self _ _))
  · have hnd : ((a1 ++ ("format", none) :: a2).map Prod.fst).Nodup := by
      rw [processLoop_keys _ _ _ _ hloop0]
      decide
    exact lookup_eq_of_mem _ _ _ hnd
      (List.mem_append.mpr (Or.inr (List.mem_cons_self _ _)))
  · intro tag hne
    rw [← hr1]
    exact lookup_append_ne a1 a2 "format" none (some (.str (pyStrip v))) tag hne
  · intro tag hne
    rw [← hfl1]
    simp [List.mem_append, List.mem_cons, hne]

/-- Witness for C9, instantiating the document at `soupFull` (whose type
link text is " TV "). -/
theorem C9_missing_type_frame_witness :
    _process_soup {soupFull with type_pretag := some (some " TV ")} =
      .ok (true, fullRecordList, []) ∧
    (∃ r0 fl0,
      _process_soup {soupFull with type_pretag := none} = .ok (false, r0, fl0) ∧
      "format" ∈ fl0 ∧ r0.lookup "format" = some none ∧
      (∀ tag, tag ≠ "format" → r0.lookup tag = fullRecordList.lookup tag) ∧
      (∀ tag, tag ≠ "format" → (tag ∈ fl0 ↔ tag ∈ ([] : List String)))) :=
  ⟨by decide,
   C9_missing_type_frame soupFull " TV " true fullRecordList [] (by decide)⟩

/-- The document of `soupFull` with the optional "English:" label removed. -/
def soupNoEnglish : Soup := {soupFull with english_pretag := none}

/-- The record extracted from `soupNoEnglish`: the optional field is null
while the run is fully successful. -/
def recordNoEnglish : List (String × Option FieldValue) :=
  [("name", some (.str "Cowboy Bebop")),
   ("name_english", none),
   ("name_japanese", some (.str "Kaubooi Bibappu")),
   ("format", some (.str "TV")),
   ("episodes", some (.int 26)),
   ("airing_status", some (.str "Finished Airing")),
   ("airing_started", some (.date ⟨1998, 4, 3⟩)),
   ("airing_finished", some (.date ⟨1999, 4, 24⟩)),
   ("airing_premiere", some (.premiere 1998 "spring"))]

/-- C10: every field name in the failure list maps to null in the record
(the failure list is a subset of the null-valued keys), while a null value
does not imply membership in the failure list: a document lacking only the
optional "English:" label produces a null field with an empty failure
list. -/
theorem C10_failures_subset_null (soup : Soup) (b : Bool)
    (r : List (String × Option FieldValue)) (fl : List String)
    (h : _process_soup soup = .ok (b, r, fl)) :
    (∀ tag, tag ∈ fl → r.lookup tag = some none) ∧
    (∃ s2 b2 r2 fl2 tag2, _process_soup s2 = .ok (b2, r2, fl2) ∧
      r2.lookup tag2 = some none ∧ tag2 ∉ fl2) := by
  obtain ⟨hp, _⟩ := _process_soup_inv _ _ _ _ h
  have hnd : (r.map Prod.fst).Nodup := by
    rw [processLoop_keys _ _ _ _ hp]
    decide
  refine ⟨?_, ?_⟩
  · intro tag htag
    exact lookup_eq_of_mem _ _ _ hnd (processLoop_fl_mem _ _ _ _ _ hp htag)
  · exact ⟨soupNoEnglish, true, recordNoEnglish, [], "name_english",
      by decide, by decide, by decide⟩

/-- Witness for C10, at the fully well-formed document. -/
theorem C10_failures_subset_null_witness :
    _process_soup soupFull = .ok (true, fullRecordList, []) ∧
    ((∀ tag, tag ∈ ([] : List String) → fullRecordList.lookup tag = some none) ∧
     (∃ s2 b2 r2 fl2 tag2, _process_soup s2 = .ok (b2, r2, fl2) ∧
       r2.lookup tag2 = some none ∧ tag2 ∉ fl2)) :=
  ⟨by decide, C10_failures_subset_null soupFull true fullRecordList [] (by decide)⟩

end AnimeScraper
